import Mathlib

/-!
Shallow embedding of the stomper STOMP-over-WebSocket broker
(message.go, handler.go, server.go) and verification of the claims
about it.  Byte strings are modelled as lists of naturals, Go maps as
association lists with map semantics (lookup of the first matching key,
in-place update of the first matching key, deletion of matching keys);
Go map iteration order, which is unspecified, is modelled as the list
order.  Functions that can end in a Go runtime panic (slice index out
of range, nil dereference) return an explicit outcome marking the
panic.
-/

namespace Stomper

/-- Byte strings: a Go string or byte slice as the list of its byte values. -/
abbrev Str := List Nat

/-- Byte string of an ASCII Lean string literal. -/
def strB (s : String) : Str := s.data.map Char.toNat

/-- Go map lookup `v, ok := m[k]` over an association list: first match. -/
def lookupM {α β : Type} [DecidableEq α] : List (α × β) → α → Option β
  | [], _ => none
  | (k, v) :: rest, a => if k = a then some v else lookupM rest a

/-- Go map assignment `m[k] = v`: replace the first entry with key k, or append. -/
def upd {α β : Type} [DecidableEq α] : List (α × β) → α → β → List (α × β)
  | [], k, v => [(k, v)]
  | (k1, v1) :: rest, k, v =>
      if k1 = k then (k, v) :: rest else (k1, v1) :: upd rest k v

/-- Go map deletion `delete(m, k)`: drop the entries with key k. -/
def delK {α β : Type} [DecidableEq α] : List (α × β) → α → List (α × β)
  | [], _ => []
  | (k1, v1) :: rest, k =>
      if k1 = k then delK rest k else (k1, v1) :: delK rest k

/-- StompMessage (message.go): command, headers map, optional body.
The Go `Body *[]byte` nil pointer is `none`. -/
structure StompMessage where
  Command : Str
  Headers : List (Str × Str)
  Body : Option Str
deriving DecidableEq

/-- ToPayload (message.go): `COMMAND\n`, each `name:value\n`, then `\n\n`,
then the body bytes if the body pointer is non-nil, then the 0x00 terminator. -/
def ToPayload (m : StompMessage) : Str :=
  m.Command ++ [10]
    ++ m.Headers.foldr (fun p acc => p.1 ++ [58] ++ p.2 ++ [10] ++ acc) []
    ++ [10, 10]
    ++ (match m.Body with | none => [] | some b => b)
    ++ [0]

/-- bytes.Split(message, "\n") — all subslices separated by the byte 0x0A. -/
def splitOnNL : Str → List Str
  | [] => [[]]
  | b :: rest =>
      if b = 10 then [] :: splitOnNL rest
      else
        match splitOnNL rest with
        | [] => [[b]]
        | g :: gs => (b :: g) :: gs

/-- bytes.Join(pieces, "\n"). -/
def joinNL : List Str → Str
  | [] => []
  | [x] => x
  | x :: xs => x ++ 10 :: joinNL xs

/-- bytes.SplitN(line, ":", 2): split at the first colon only;
`none` when the line holds no colon (the Go result has length 1). -/
def splitFirstColon : Str → Option (Str × Str)
  | [] => none
  | b :: rest =>
      if b = 58 then some ([], rest)
      else (splitFirstColon rest).map (fun p => (b :: p.1, p.2))

/-- The header-scanning loop of parseMessage (handler.go): walk the pieces
after the command carrying the running index; stop at the first empty piece
recording its index as lastHeader, or at the first piece without a colon
leaving lastHeader at its initial value 0 (the loop breaks without setting it);
accumulate `headers[name] = value` along the way. -/
def scanHeaders : List Str → Nat → List (Str × Str) → List (Str × Str) × Nat
  | [], _, acc => (acc, 0)
  | line :: rest, idx, acc =>
      if line = [] then (acc, idx)
      else
        match splitFirstColon line with
        | none => (acc, 0)
        | some p => scanHeaders rest (idx + 1) (upd acc p.1 p.2)

/-- bytes.IndexByte(bs, 0x00): index of the first NUL, `none` for Go's -1. -/
def idxOfNull : Str → Option Nat
  | [] => none
  | b :: rest => if b = 0 then some 0 else (idxOfNull rest).map (· + 1)

/-- All-decimal-digit parse used by strconv.ParseInt: `none` on an empty
digit string or any non-digit byte. -/
def digitsToNat : Str → Option Nat
  | [] => none
  | l =>
      l.foldl
        (fun acc b =>
          match acc with
          | none => none
          | some n => if 48 ≤ b ∧ b ≤ 57 then some (n * 10 + (b - 48)) else none)
        (some 0)

/-- strconv.ParseInt(val, 10, 32): optional single leading `+` or `-`,
decimal digits, value within the signed 32-bit range; on any syntax or
range error the Go caller sees a non-nil error, modelled as `none`. -/
def goParseInt32 (s : Str) : Option Int :=
  match s with
  | 43 :: rest =>
      (digitsToNat rest).bind
        (fun n => if (n : Int) ≤ 2147483647 then some (n : Int) else none)
  | 45 :: rest =>
      (digitsToNat rest).bind
        (fun n => if (n : Int) ≤ 2147483648 then some (-(n : Int)) else none)
  | _ =>
      (digitsToNat s).bind
        (fun n => if (n : Int) ≤ 2147483647 then some (n : Int) else none)

def hdrDestination : Str := strB "destination"
def hdrId : Str := strB "id"
def hdrContentLength : Str := strB "content-length"
def hdrContentType : Str := strB "content-type"
def hdrSubscription : Str := strB "subscription"
def cmdMessage : Str := strB "MESSAGE"

/-- Outcome of parseMessage (handler.go).  The Go function either returns a
message with a nil error, returns `(nil, nil)` — no message and no error —
or hits a runtime panic on a slice expression. -/
inductive ParseResult where
  | ok (m : StompMessage)
  | failNil
  | panicked
deriving DecidableEq

/-- `bytes.Split(message, "\n")` as performed by parseMessage. -/
def splitMsg (message : Str) : List Str := splitOnNL message

/-- The headers and lastHeader index computed by parseMessage's loop
(indices are positions in the full split; the loop skips index 0). -/
def parsedHeaders (message : Str) : List (Str × Str) × Nat :=
  scanHeaders (splitMsg message).tail 1 []

/-- `bodyWithNull := bytes.Join(split[lastHeader+1:], "\n")` of parseMessage. -/
def bodyWithNull (message : Str) : Str :=
  joinNL ((splitMsg message).drop ((parsedHeaders message).2 + 1))

/-- parseMessage (handler.go).  Splits on newlines; fewer than two pieces is
the `return nil, nil` path.  With a content-length header, Go computes
`receivedLength := len(bodyWithNull) - 1`, returns `(nil, nil)` when
`length < receivedLength`, and otherwise evaluates `bodyWithNull[:length]`,
which panics when length is negative or larger than len(bodyWithNull).
Without one, it evaluates `bodyWithNull[:bytes.IndexByte(bodyWithNull, 0)]`,
which panics when the slice holds no NUL byte (index -1). -/
def parseMessage (message : Str) : ParseResult :=
  if (splitMsg message).length < 2 then .failNil
  else
    let command := (splitMsg message).headD []
    let headers := (parsedHeaders message).1
    let bwn := bodyWithNull message
    match lookupM headers hdrContentLength with
    | some val =>
        match goParseInt32 val with
        | none => .failNil
        | some length =>
            if length < (bwn.length : Int) - 1 then .failNil
            else if length < 0 ∨ (bwn.length : Int) < length then .panicked
            else .ok ⟨command, headers, some (bwn.take length.toNat)⟩
    | none =>
        match idxOfNull bwn with
        | none => .panicked
        | some i => .ok ⟨command, headers, some (bwn.take i)⟩

/-- What the read loop of clientHandler (handler.go) does with one text
payload, up to obtaining a parsed frame: a lone `\n` is the heartbeat and is
skipped; otherwise parseMessage runs and the loop breaks only when the
returned error is non-nil — since parseMessage returns a nil error in every
failure case, the `(nil, nil)` outcome reaches `stompMsg := *result` and the
nil dereference is a runtime panic, as is a panic inside parseMessage. -/
inductive SessionReaction where
  | heartbeat
  | proceed (m : StompMessage)
  | breakLoop
  | crash
deriving DecidableEq

/-- The caller side of parseMessage in clientHandler (handler.go lines 79-85). -/
def sessionParseReaction : ParseResult → SessionReaction
  | .ok m => .proceed m
  | .failNil => .crash
  | .panicked => .crash

/-- One iteration of the read loop on a text payload (handler.go). -/
def sessionReadReaction (payload : Str) : SessionReaction :=
  if payload = [10] then .heartbeat
  else sessionParseReaction (parseMessage payload)

/-- Go `map[string]*Client` keyed by subscription id; the stored value is the
uid of the client pointer that addSubscription stores. -/
abbrev ClientSubs := List (Str × Nat)

/-- Go `map[uint64]map[string]*Client`: client uid to its subscriptions. -/
abbrev TopicSubs := List (Nat × ClientSubs)

/-- The two package-wide mutable tables of server.go: `clients` maps a uid to
the client pointer (modelled by its uid) and `subscriptions` maps a topic to
its per-client buckets. -/
structure Registry where
  clients : List (Nat × Nat)
  subscriptions : List (Str × TopicSubs)
deriving DecidableEq

/-- addClient (server.go): `server.clients[client.Uid] = client`. -/
def addClient (r : Registry) (uid : Nat) : Registry :=
  { r with clients := upd r.clients uid uid }

/-- removeClient (server.go): delete the client from the table, then delete
its uid from every topic bucket (topic entries themselves are kept). -/
def removeClient (r : Registry) (uid : Nat) : Registry :=
  { clients := delK r.clients uid
    subscriptions := r.subscriptions.map (fun ts => (ts.1, delK ts.2 uid)) }

/-- addSubscription (server.go): requires the `destination` and `id` headers,
returning false and touching nothing when either is missing; otherwise makes
the topic and per-client maps if absent and stores the client under the
subscription id. -/
def addSubscription (r : Registry) (uid : Nat) (m : StompMessage) :
    Bool × Registry :=
  match lookupM m.Headers hdrDestination with
  | none => (false, r)
  | some topic =>
      match lookupM m.Headers hdrId with
      | none => (false, r)
      | some subId =>
          let subs := (lookupM r.subscriptions topic).getD []
          let clientSubs := (lookupM subs uid).getD []
          let clientSubs2 := upd clientSubs subId uid
          let subs2 := upd subs uid clientSubs2
          (true, { r with subscriptions := upd r.subscriptions topic subs2 })

/-- The topic loop of removeSubscription (server.go): for each topic in
iteration order, when the bucket has no entry for the client the function
executes `return true`, leaving every remaining topic untouched; otherwise
the subscription id is deleted from the client's bucket and the bucket
itself is deleted when it became empty. -/
def sweepRemove : List (Str × TopicSubs) → Nat → Str → List (Str × TopicSubs)
  | [], _, _ => []
  | (t, ts) :: rest, uid, subId =>
      match lookupM ts uid with
      | none => (t, ts) :: rest
      | some cs =>
          let cs2 := delK cs subId
          let ts2 := if cs2.length = 0 then delK ts uid else upd ts uid cs2
          (t, ts2) :: sweepRemove rest uid subId

/-- removeSubscription (server.go): requires the `id` header, returning false
and touching nothing when it is missing; otherwise runs the topic loop. -/
def removeSubscription (r : Registry) (uid : Nat) (m : StompMessage) :
    Bool × Registry :=
  match lookupM m.Headers hdrId with
  | none => (false, r)
  | some subId =>
      (true, { r with subscriptions := sweepRemove r.subscriptions uid subId })

/-- strconv.Itoa. -/
def itoa (n : Nat) : Str := (Nat.toDigits 10 n).map Char.toNat

/-- The MESSAGE frame built for one subscription inside SendMessageWithCheck
(server.go): command MESSAGE, the four headers, and the body bytes. -/
def mkMessageFrame (topic contentType subId body : Str) : StompMessage :=
  { Command := cmdMessage
    Headers := [(hdrContentType, contentType), (hdrSubscription, subId),
                (hdrDestination, topic), (hdrContentLength, itoa body.length)]
    Body := some body }

/-- The (stored client, subscription id) pairs visited by the double loop of
SendMessageWithCheck for a topic, in iteration order; empty when the topic
is absent from the subscription index. -/
def topicPairs (r : Registry) (topic : Str) : List (Nat × Str) :=
  match lookupM r.subscriptions topic with
  | none => []
  | some subs => subs.flatMap (fun cu => cu.2.map (fun sc => (sc.2, sc.1)))

/-- The skip test of SendMessageWithCheck: `check != nil && !check(client)`
skips the write, so a write is attempted when the predicate is nil or true. -/
def passesCheck (check : Option (Nat → Bool)) (uid : Nat) : Bool :=
  match check with
  | none => true
  | some f => f uid

/-- SendMessageWithCheck (server.go), modelled by the list of attempted
writes in iteration order: each visited subscription whose client passes
the predicate contributes one (client, MESSAGE frame) write; a failing
write only logs, so it stays an attempted write. -/
def SendMessageWithCheck (r : Registry) (topic contentType body : Str)
    (check : Option (Nat → Bool)) : List (Nat × StompMessage) :=
  (topicPairs r topic).foldr
    (fun q acc =>
      if passesCheck check q.1 then
        (q.1, mkMessageFrame topic contentType q.2 body) :: acc
      else acc)
    []

/-- SendMessage (server.go): SendMessageWithCheck with a nil predicate. -/
def SendMessage (r : Registry) (topic contentType body : Str) :
    List (Nat × StompMessage) :=
  SendMessageWithCheck r topic contentType body none

/-- The registry mutations a session loop (clientHandler, handler.go) can
perform, one event per processed frame or exit.  A CONNECT whose handlers
all admit runs addClient; a vetoed CONNECT returns from the handler, which
runs the deferred disconnect handlers and removeClient.  A SUBSCRIBE whose
handlers all admit runs addSubscription and a vetoed one changes nothing.
An UNSUBSCRIBE always runs removeSubscription.  A session exit (read error,
CloseError or DISCONNECT frame) runs the deferred removeClient. -/
inductive SEvent where
  | connectOK (uid : Nat)
  | connectVeto (uid : Nat)
  | subOK (uid : Nat) (m : StompMessage)
  | subVeto (uid : Nat)
  | unsub (uid : Nat) (m : StompMessage)
  | exitSession (uid : Nat)
deriving DecidableEq

/-- The registry effect of one session event. -/
def stepEvent (r : Registry) : SEvent → Registry
  | .connectOK u => addClient r u
  | .connectVeto u => removeClient r u
  | .subOK u m => (addSubscription r u m).2
  | .subVeto _ => r
  | .unsub u m => (removeSubscription r u m).2
  | .exitSession u => removeClient r u

/-- Run a sequence of interleaved session events against the registry. -/
def runEvents (r : Registry) : List SEvent → Registry
  | [] => r
  | e :: es => runEvents (stepEvent r e) es

/-- Guard of one event under the connect-first discipline: a processed
SUBSCRIBE must be by a client that is in the client table at that moment. -/
def eventGuard (r : Registry) : SEvent → Bool
  | .subOK u _ => (lookupM r.clients u).isSome
  | _ => true

/-- Connect-first discipline on a trace: every processed SUBSCRIBE is by a
client that is in the client table at that moment. -/
def subsGuard (r : Registry) : List SEvent → Bool
  | [] => true
  | e :: es => eventGuard r e && subsGuard (stepEvent r e) es

/-- The client uids referenced by one topic's buckets: every per-client key
and every stored client value. -/
def topicRefs (ts : TopicSubs) : List Nat :=
  ts.flatMap (fun cu => cu.1 :: cu.2.map (fun sc => sc.2))

/-- All client uids referenced by the subscription index. -/
def subsRefs (l : List (Str × TopicSubs)) : List Nat :=
  l.flatMap (fun t => topicRefs t.2)

/-- Registry consistency: every client referenced by the subscription index
is present in the client table. -/
def invB (r : Registry) : Bool :=
  (subsRefs r.subscriptions).all (fun u => (lookupM r.clients u).isSome)

/-- Structural well-formedness of the index: the client stored under a
subscription id is the client whose uid keys the bucket — addSubscription
only ever stores a client in its own bucket. -/
def wfB (r : Registry) : Bool :=
  r.subscriptions.all
    (fun t => t.2.all (fun cu => cu.2.all (fun sc => sc.2 == cu.1)))

/-- The veto loops of clientHandler (handler.go): run the handlers in order,
stopping at the first that returns false.  Result: whether all admitted,
and how many handlers were invoked. -/
def runVetoList {α : Type} : List (α → Bool) → α → Bool × Nat
  | [], _ => (true, 0)
  | h :: rest, x =>
      if h x then
        let p := runVetoList rest x
        (p.1, p.2 + 1)
      else (false, 1)

/-- Observable outcome of processing one CONNECT frame: how many connect
handlers ran, whether all admitted, whether the session returned (closing
the socket), whether the deferred disconnect handlers ran, and the registry
afterwards. -/
structure ConnectOutcome where
  invoked : Nat
  admitted : Bool
  sessionClosed : Bool
  disconnectRan : Bool
  registry : Registry
deriving DecidableEq

/-- The CONNECT branch of clientHandler (handler.go): after the CONNECTED
reply, the connect handlers run in order; the first veto makes the handler
return, which runs the deferred disconnect handlers and removeClient; only
when every handler admits is addClient reached. -/
def processConnect {α : Type} (hs : List (α → Bool)) (x : α) (r : Registry)
    (uid : Nat) : ConnectOutcome :=
  let p := runVetoList hs x
  if p.1 then ⟨p.2, true, false, false, addClient r uid⟩
  else ⟨p.2, false, true, true, removeClient r uid⟩

/-- The SUBSCRIBE branch of clientHandler (handler.go): the subscribe
handlers run in order and the first veto breaks the loop; addSubscription
runs only when none vetoed.  Result: handlers invoked and the registry. -/
def processSubscribe {α : Type} (hs : List (α → Bool)) (x : α) (r : Registry)
    (uid : Nat) (m : StompMessage) : Nat × Registry :=
  let p := runVetoList hs x
  if p.1 then (p.2, (addSubscription r uid m).2) else (p.2, r)

/-- Handler signatures of server.go, over model types: the client is its
uid, http.Header is dropped. -/
def MessageHandlerT : Type := Nat → Str → StompMessage → Unit
def SubscribeHandlerT : Type := Nat → Str → Bool
def UnsubscribeHandlerT : Type := Nat → Str → Unit
def ConnectHandlerT : Type := Nat → StompMessage → Bool
def DisconnectHandlerT : Type := Nat → Unit

/-- The Server struct of server.go, restricted to the fields the lifecycle
claims touch: the setup flag, the five handler lists and the two tables. -/
structure GoServer where
  setup : Bool
  messageHandlers : List MessageHandlerT
  subscribeHandlers : List SubscribeHandlerT
  unsubscribeHandlers : List UnsubscribeHandlerT
  connectHandlers : List ConnectHandlerT
  disconnectHandlers : List DisconnectHandlerT
  clients : List (Nat × Nat)
  subscriptions : List (Str × TopicSubs)

/-- AddMessageHandler (server.go): error after setup, else append. -/
def AddMessageHandler (s : GoServer) (h : MessageHandlerT) :
    Option String × GoServer :=
  if s.setup then
    (some "unable to add message handler after server is setup", s)
  else (none, { s with messageHandlers := s.messageHandlers ++ [h] })

/-- AddSubscribeHandler (server.go): error after setup, else append. -/
def AddSubscribeHandler (s : GoServer) (h : SubscribeHandlerT) :
    Option String × GoServer :=
  if s.setup then
    (some "unable to add subscribe handler after server is setup", s)
  else (none, { s with subscribeHandlers := s.subscribeHandlers ++ [h] })

/-- AddUnsubscribeHandler (server.go): error after setup, else append. -/
def AddUnsubscribeHandler (s : GoServer) (h : UnsubscribeHandlerT) :
    Option String × GoServer :=
  if s.setup then
    (some "unable to add unsubscribe handler after server is setup", s)
  else (none, { s with unsubscribeHandlers := s.unsubscribeHandlers ++ [h] })

/-- AddConnectHandler (server.go): error after setup, else append. -/
def AddConnectHandler (s : GoServer) (h : ConnectHandlerT) :
    Option String × GoServer :=
  if s.setup then
    (some "unable to add connect handler after server is setup", s)
  else (none, { s with connectHandlers := s.connectHandlers ++ [h] })

/-- AddDisconnectHandler (server.go): error after setup, else append. -/
def AddDisconnectHandler (s : GoServer) (h : DisconnectHandlerT) :
    Option String × GoServer :=
  if s.setup then
    (some "unable to add disconnect handler after server is setup", s)
  else (none, { s with disconnectHandlers := s.disconnectHandlers ++ [h] })

/-- Setup (server.go) on the modelled fields: initialize the empty client
and subscription tables and raise the setup flag; the handler lists are
untouched (logger and upgrader configuration fall outside the model). -/
def SetupServer (s : GoServer) : GoServer :=
  { s with clients := [], subscriptions := [], setup := true }

/-! Helper lemmas about the association-list map operations. -/

theorem lookupM_upd {α β : Type} [DecidableEq α] (m : List (α × β)) (k a : α)
    (v : β) :
    lookupM (upd m k v) a = if k = a then some v else lookupM m a := by
  induction m with
  | nil => simp [upd, lookupM]
  | cons p rest ih =>
    obtain ⟨k1, v1⟩ := p
    by_cases h1 : k1 = k
    · subst h1
      by_cases h2 : k1 = a <;> simp [upd, lookupM, h2]
    · by_cases h2 : k1 = a
      · subst h2
        have hk : ¬ k = k1 := fun h => h1 h.symm
        simp [upd, lookupM, h1, hk]
      · simp [upd, lookupM, h1, h2, ih]

theorem lookupM_delK {α β : Type} [DecidableEq α] (m : List (α × β)) (k a : α) :
    lookupM (delK m k) a = if k = a then none else lookupM m a := by
  induction m with
  | nil => simp [delK, lookupM]
  | cons p rest ih =>
    obtain ⟨k1, v1⟩ := p
    by_cases h1 : k1 = k
    · subst h1
      by_cases h2 : k1 = a
      · subst h2; simp [delK, lookupM, ih]
      · have hk : ¬ k1 = a := h2
        simp [delK, lookupM, ih, hk]
    · by_cases h2 : k1 = a
      · subst h2
        have hk : ¬ k = k1 := fun h => h1 h.symm
        simp [delK, lookupM, h1, hk]
      · simp [delK, lookupM, h1, h2, ih]

theorem mem_upd {α β : Type} [DecidableEq α] {m : List (α × β)} {k : α}
    {v : β} {p : α × β} (hp : p ∈ upd m k v) : p = (k, v) ∨ p ∈ m := by
  induction m with
  | nil => simpa [upd] using hp
  | cons q rest ih =>
    by_cases h1 : q.1 = k
    · rw [show upd (q :: rest) k v = (k, v) :: rest by
        obtain ⟨q1, q2⟩ := q; simp [upd] at h1 ⊢; simp [h1]] at hp
      rcases List.mem_cons.mp hp with h | h
      · exact Or.inl h
      · exact Or.inr (List.mem_cons_of_mem q h)
    · rw [show upd (q :: rest) k v = q :: upd rest k v by
        obtain ⟨q1, q2⟩ := q; simp [upd] at h1 ⊢; simp [h1]] at hp
      rcases List.mem_cons.mp hp with h | h
      · exact Or.inr (h ▸ List.mem_cons_self q rest)
      · rcases ih h with h2 | h2
        · exact Or.inl h2
        · exact Or.inr (List.mem_cons_of_mem q h2)

theorem mem_delK {α β : Type} [DecidableEq α] {m : List (α × β)} {k : α}
    {p : α × β} (hp : p ∈ delK m k) : p ∈ m ∧ p.1 ≠ k := by
  induction m with
  | nil => simp [delK] at hp
  | cons q rest ih =>
    obtain ⟨q1, q2⟩ := q
    by_cases h1 : q1 = k
    · rw [show delK ((q1, q2) :: rest) k = delK rest k by simp [delK, h1]] at hp
      exact ⟨List.mem_cons_of_mem _ (ih hp).1, (ih hp).2⟩
    · rw [show delK ((q1, q2) :: rest) k = (q1, q2) :: delK rest k by
        simp [delK, h1]] at hp
      rcases List.mem_cons.mp hp with h | h
      · subst h; exact ⟨List.mem_cons_self _ rest, h1⟩
      · exact ⟨List.mem_cons_of_mem _ (ih h).1, (ih h).2⟩

theorem lookupM_mem {α β : Type} [DecidableEq α] {m : List (α × β)} {a : α}
    {b : β} (h : lookupM m a = some b) : (a, b) ∈ m := by
  induction m with
  | nil => simp [lookupM] at h
  | cons q rest ih =>
    obtain ⟨k1, v1⟩ := q
    by_cases h1 : k1 = a
    · subst h1
      simp [lookupM] at h
      subst h
      exact List.mem_cons_self _ rest
    · simp [lookupM, h1] at h
      exact List.mem_cons_of_mem _ (ih h)

theorem getD_mem {α β : Type} [DecidableEq α] {m : List (α × List β)} {k : α}
    {x : β} (hx : x ∈ (lookupM m k).getD []) : (k, (lookupM m k).getD []) ∈ m := by
  cases h0 : lookupM m k with
  | none => rw [h0] at hx; simp at hx
  | some v => simpa using lookupM_mem h0

/-! Registry-consistency invariant, at the level of the raw tables. -/

/-- Every uid referenced by the index S is a key of the client table. -/
def InvL (clients : List (Nat × Nat)) (S : List (Str × TopicSubs)) : Prop :=
  ∀ a ∈ subsRefs S, (lookupM clients a).isSome = true

/-- The stored client of every subscription equals its bucket's key. -/
def WfL (S : List (Str × TopicSubs)) : Prop :=
  ∀ t ∈ S, ∀ cu ∈ t.2, ∀ sc ∈ cu.2, sc.2 = cu.1

theorem invB_iff (r : Registry) : invB r = true ↔ InvL r.clients r.subscriptions := by
  simp [invB, InvL, List.all_eq_true]

theorem wfB_iff (r : Registry) : wfB r = true ↔ WfL r.subscriptions := by
  simp [wfB, WfL, List.all_eq_true]

theorem mem_topicRefs {a : Nat} {ts : TopicSubs} :
    a ∈ topicRefs ts ↔ ∃ cu ∈ ts, a = cu.1 ∨ ∃ sc ∈ cu.2, sc.2 = a := by
  simp [topicRefs, List.mem_flatMap]

theorem mem_subsRefs {a : Nat} {l : List (Str × TopicSubs)} :
    a ∈ subsRefs l ↔ ∃ t ∈ l, a ∈ topicRefs t.2 := by
  simp [subsRefs, List.mem_flatMap]

theorem subsRefs_cons {t : Str × TopicSubs} {rest : List (Str × TopicSubs)} :
    subsRefs (t :: rest) = topicRefs t.2 ++ subsRefs rest := by
  simp [subsRefs]

/-- A reference into the bucket list actually present under a key is a
reference of the whole topic. -/
theorem topicRefs_of_entry {a : Nat} {ts : TopicSubs} {cu : Nat × ClientSubs}
    (hcu : cu ∈ ts) (ha : a = cu.1 ∨ ∃ sc ∈ cu.2, sc.2 = a) :
    a ∈ topicRefs ts :=
  mem_topicRefs.mpr ⟨cu, hcu, ha⟩

theorem subsRefs_of_entry {a : Nat} {l : List (Str × TopicSubs)}
    {t : Str × TopicSubs} (ht : t ∈ l) (ha : a ∈ topicRefs t.2) :
    a ∈ subsRefs l :=
  mem_subsRefs.mpr ⟨t, ht, ha⟩

/-- References created by the table update of addSubscription: every
referenced uid was already referenced, or is the subscribing client. -/
theorem addSubscription_refs_bound (S : List (Str × TopicSubs)) (topic : Str)
    (u : Nat) (subId : Str) (a : Nat)
    (ha : a ∈ subsRefs (upd S topic
      (upd ((lookupM S topic).getD []) u
        (upd ((lookupM ((lookupM S topic).getD []) u).getD []) subId u)))) :
    a ∈ subsRefs S ∨ a = u := by
  rcases mem_subsRefs.mp ha with ⟨t, ht, hart⟩
  rcases mem_upd ht with hteq | htS
  · subst hteq
    rcases mem_topicRefs.mp hart with ⟨cu, hcu, hacu⟩
    rcases mem_upd hcu with hcueq | hcuts
    · subst hcueq
      rcases hacu with h | ⟨sc, hsc, hsca⟩
      · exact Or.inr h
      · rcases mem_upd hsc with hsceq | hsccs
        · subst hsceq; exact Or.inr hsca.symm
        · -- the stored pair was already in the client's bucket
          have h1 := getD_mem hsccs
          have h2 := getD_mem (m := S) (k := topic) h1
          exact Or.inl (subsRefs_of_entry h2 (topicRefs_of_entry h1
            (Or.inr ⟨sc, hsccs, hsca⟩)))
    · have h2 := getD_mem (m := S) (k := topic) hcuts
      exact Or.inl (subsRefs_of_entry h2 (topicRefs_of_entry hcuts hacu))
  · exact Or.inl (subsRefs_of_entry htS hart)

/-- Well-formedness survives the table update of addSubscription. -/
theorem addSubscription_wf_bound (S : List (Str × TopicSubs)) (topic : Str)
    (u : Nat) (subId : Str) (hw : WfL S) :
    WfL (upd S topic
      (upd ((lookupM S topic).getD []) u
        (upd ((lookupM ((lookupM S topic).getD []) u).getD []) subId u))) := by
  intro t ht cu hcu sc hsc
  rcases mem_upd ht with hteq | htS
  · subst hteq
    rcases mem_upd hcu with hcueq | hcuts
    · subst hcueq
      rcases mem_upd hsc with hsceq | hsccs
      · subst hsceq; rfl
      · have h1 := getD_mem hsccs
        have h2 := getD_mem (m := S) (k := topic) h1
        exact hw _ h2 _ h1 _ hsccs
    · have h2 := getD_mem (m := S) (k := topic) hcuts
      exact hw _ h2 _ hcuts _ hsc
  · exact hw _ htS _ hcu _ hsc

/-- References surviving the topic loop of removeSubscription were already
present: the loop only deletes. -/
theorem sweepRemove_refs_bound (S : List (Str × TopicSubs)) (u : Nat)
    (sid : Str) (a : Nat) (ha : a ∈ subsRefs (sweepRemove S u sid)) :
    a ∈ subsRefs S := by
  induction S with
  | nil => simpa [sweepRemove] using ha
  | cons t rest ih =>
    obtain ⟨tn, ts⟩ := t
    cases h0 : lookupM ts u with
    | none =>
      rw [show sweepRemove ((tn, ts) :: rest) u sid = (tn, ts) :: rest by
        simp [sweepRemove, h0]] at ha
      exact ha
    | some cs =>
      rw [show sweepRemove ((tn, ts) :: rest) u sid =
          (tn, if (delK cs sid).length = 0 then delK ts u
               else upd ts u (delK cs sid)) :: sweepRemove rest u sid by
        simp [sweepRemove, h0]] at ha
      rw [subsRefs_cons] at ha ⊢
      rcases List.mem_append.mp ha with hhead | htail
      · refine List.mem_append.mpr (Or.inl ?_)
        by_cases hlen : (delK cs sid).length = 0
        · rw [if_pos hlen] at hhead
          rcases mem_topicRefs.mp hhead with ⟨cu, hcu, hacu⟩
          exact topicRefs_of_entry (mem_delK hcu).1 hacu
        · rw [if_neg hlen] at hhead
          rcases mem_topicRefs.mp hhead with ⟨cu, hcu, hacu⟩
          rcases mem_upd hcu with hcueq | hcuts
          · subst hcueq
            rcases hacu with h | ⟨sc, hsc, hsca⟩
            · exact topicRefs_of_entry (lookupM_mem h0) (Or.inl h)
            · exact topicRefs_of_entry (lookupM_mem h0)
                (Or.inr ⟨sc, (mem_delK hsc).1, hsca⟩)
          · exact topicRefs_of_entry hcuts hacu
      · exact List.mem_append.mpr (Or.inr (ih htail))

/-- Well-formedness survives the topic loop of removeSubscription. -/
theorem sweepRemove_wf_bound (S : List (Str × TopicSubs)) (u : Nat)
    (sid : Str) (hw : WfL S) : WfL (sweepRemove S u sid) := by
  induction S with
  | nil => simpa [sweepRemove] using hw
  | cons t rest ih =>
    obtain ⟨tn, ts⟩ := t
    have hwrest : WfL rest := fun t ht => hw t (List.mem_cons_of_mem _ ht)
    cases h0 : lookupM ts u with
    | none =>
      rw [show sweepRemove ((tn, ts) :: rest) u sid = (tn, ts) :: rest by
        simp [sweepRemove, h0]]
      exact hw
    | some cs =>
      rw [show sweepRemove ((tn, ts) :: rest) u sid =
          (tn, if (delK cs sid).length = 0 then delK ts u
               else upd ts u (delK cs sid)) :: sweepRemove rest u sid by
        simp [sweepRemove, h0]]
      intro t ht cu hcu sc hsc
      rcases List.mem_cons.mp ht with hteq | htrest
      · subst hteq
        simp only at hcu
        by_cases hlen : (delK cs sid).length = 0
        · rw [if_pos hlen] at hcu
          exact hw _ (List.mem_cons_self _ _) _ (mem_delK hcu).1 _ hsc
        · rw [if_neg hlen] at hcu
          rcases mem_upd hcu with hcueq | hcuts
          · subst hcueq
            exact hw _ (List.mem_cons_self _ _) _ (lookupM_mem h0) _ (mem_delK hsc).1
          · exact hw _ (List.mem_cons_self _ _) _ hcuts _ hsc
      · exact ih hwrest _ htrest _ hcu _ hsc

/-- removeClient preserves consistency and well-formedness: the table loses
u and, by the sweep, the index loses every bucket keyed u. -/
theorem removeClient_preserves (r : Registry) (u : Nat)
    (hi : InvL r.clients r.subscriptions) (hw : WfL r.subscriptions) :
    InvL (removeClient r u).clients (removeClient r u).subscriptions
      ∧ WfL (removeClient r u).subscriptions := by
  constructor
  · intro a ha
    simp only [removeClient] at ha ⊢
    rcases mem_subsRefs.mp ha with ⟨t, ht, hart⟩
    rcases List.mem_map.mp ht with ⟨t0, ht0, hteq⟩
    subst hteq
    rcases mem_topicRefs.mp hart with ⟨cu, hcu, hacu⟩
    obtain ⟨hcu0, hcune⟩ := mem_delK (m := t0.2) hcu
    have hne : a ≠ u := by
      rcases hacu with h | ⟨sc, hsc, hsca⟩
      · exact h ▸ hcune
      · rw [← hsca, hw _ ht0 _ hcu0 _ hsc]
        exact hcune
    have h1 := hi a (subsRefs_of_entry ht0 (topicRefs_of_entry hcu0 hacu))
    rw [lookupM_delK, if_neg (fun h => hne h.symm)]
    exact h1
  · intro t ht cu hcu sc hsc
    simp only [removeClient] at ht
    rcases List.mem_map.mp ht with ⟨t0, ht0, hteq⟩
    subst hteq
    exact hw _ ht0 _ (mem_delK (m := t0.2) hcu).1 _ hsc

/-- One guarded session event preserves consistency and well-formedness. -/
theorem stepEvent_preserves (r : Registry) (e : SEvent)
    (hi : InvL r.clients r.subscriptions) (hw : WfL r.subscriptions)
    (hg : eventGuard r e = true) :
    InvL (stepEvent r e).clients (stepEvent r e).subscriptions
      ∧ WfL (stepEvent r e).subscriptions := by
  cases e with
  | connectOK u =>
    refine ⟨fun a ha => ?_, hw⟩
    have h1 := hi a (by simpa [stepEvent, addClient] using ha)
    simp only [stepEvent, addClient, lookupM_upd]
    by_cases h2 : u = a <;> simp [h2, h1]
  | connectVeto u => exact removeClient_preserves r u hi hw
  | subOK u m =>
    cases hd : lookupM m.Headers hdrDestination with
    | none => simpa [stepEvent, addSubscription, hd] using ⟨hi, hw⟩
    | some topic =>
      cases hid : lookupM m.Headers hdrId with
      | none => simpa [stepEvent, addSubscription, hd, hid] using ⟨hi, hw⟩
      | some subId =>
        have hcl : (stepEvent r (SEvent.subOK u m)).clients = r.clients := by
          simp [stepEvent, addSubscription, hd, hid]
        have hsubs : (stepEvent r (SEvent.subOK u m)).subscriptions =
            upd r.subscriptions topic
              (upd ((lookupM r.subscriptions topic).getD []) u
                (upd ((lookupM ((lookupM r.subscriptions topic).getD []) u).getD [])
                  subId u)) := by
          simp [stepEvent, addSubscription, hd, hid]
        rw [hcl, hsubs]
        refine ⟨fun a ha => ?_, addSubscription_wf_bound _ _ _ _ hw⟩
        rcases addSubscription_refs_bound _ _ _ _ _ ha with h | h
        · exact hi a h
        · subst h; simpa [eventGuard] using hg
  | subVeto u => exact ⟨hi, hw⟩
  | unsub u m =>
    cases hid : lookupM m.Headers hdrId with
    | none => simpa [stepEvent, removeSubscription, hid] using ⟨hi, hw⟩
    | some subId =>
      have hcl : (stepEvent r (SEvent.unsub u m)).clients = r.clients := by
        simp [stepEvent, removeSubscription, hid]
      have hsubs : (stepEvent r (SEvent.unsub u m)).subscriptions =
          sweepRemove r.subscriptions u subId := by
        simp [stepEvent, removeSubscription, hid]
      rw [hcl, hsubs]
      exact ⟨fun a ha => hi a (sweepRemove_refs_bound _ _ _ _ ha),
        sweepRemove_wf_bound _ _ _ hw⟩
  | exitSession u => exact removeClient_preserves r u hi hw

/-- Registry consistency holds along any connect-first trace. -/
theorem runEvents_preserves (tr : List SEvent) : ∀ (r : Registry),
    InvL r.clients r.subscriptions → WfL r.subscriptions →
    subsGuard r tr = true →
    InvL (runEvents r tr).clients (runEvents r tr).subscriptions
      ∧ WfL (runEvents r tr).subscriptions := by
  induction tr with
  | nil => exact fun r hi hw _ => ⟨hi, hw⟩
  | cons e es ih =>
    intro r hi hw hg
    rw [show subsGuard r (e :: es) =
        (eventGuard r e && subsGuard (stepEvent r e) es) from rfl,
      Bool.and_eq_true] at hg
    have hstep := stepEvent_preserves r e hi hw hg.1
    exact ih (stepEvent r e) hstep.1 hstep.2 hg.2

/-- With a nil predicate the fan-out fold keeps every visited subscription. -/
theorem sendNone_eq_map (l : List (Nat × Str)) (topic ct body : Str) :
    l.foldr (fun q acc =>
        if passesCheck none q.1 then (q.1, mkMessageFrame topic ct q.2 body) :: acc
        else acc) []
      = l.map (fun q => (q.1, mkMessageFrame topic ct q.2 body)) := by
  induction l with
  | nil => rfl
  | cons q rest ih =>
    simp [passesCheck] at ih
    simp [passesCheck, ih]

theorem frame_hdr_contentType (t c s b : Str) :
    lookupM (mkMessageFrame t c s b).Headers hdrContentType = some c := by
  simp +decide [mkMessageFrame, lookupM]

theorem frame_hdr_subscription (t c s b : Str) :
    lookupM (mkMessageFrame t c s b).Headers hdrSubscription = some s := by
  simp +decide [mkMessageFrame, lookupM]

theorem frame_hdr_destination (t c s b : Str) :
    lookupM (mkMessageFrame t c s b).Headers hdrDestination = some t := by
  simp +decide [mkMessageFrame, lookupM]

theorem frame_hdr_contentLength (t c s b : Str) :
    lookupM (mkMessageFrame t c s b).Headers hdrContentLength
      = some (itoa b.length) := by
  simp +decide [mkMessageFrame, lookupM]

/-- The veto loops: all-but-the-vetoer admitted, so exactly the handlers up
to and including the first veto are invoked and the result is a rejection. -/
theorem runVetoList_veto {α : Type} (pre post : List (α → Bool)) (v : α → Bool)
    (x : α) (hpre : ∀ h ∈ pre, h x = true) (hv : v x = false) :
    runVetoList (pre ++ v :: post) x = (false, pre.length + 1) := by
  induction pre with
  | nil => simp [runVetoList, hv]
  | cons h0 rest ih =>
    have h1 : h0 x = true := hpre h0 (List.mem_cons_self _ _)
    have ih2 := ih (fun h hm => hpre h (List.mem_cons_of_mem _ hm))
    simp [runVetoList, h1, ih2]

/-! Example fixtures used by counterexamples and witnesses. -/

def regEmpty : Registry := ⟨[], []⟩

def exSubMsg : StompMessage :=
  ⟨strB "SUBSCRIBE", [(hdrDestination, strB "/topic/x"), (hdrId, strB "s1")], none⟩

def exUnsubMsg : StompMessage :=
  ⟨strB "UNSUBSCRIBE", [(hdrId, strB "s1")], none⟩

/-- A reachable registry: client 2 subscribed to t1, client 1 to t2 (so the
iteration of removeSubscription meets t1, which has no bucket for client 1,
before t2, which does). -/
def r5ex : Registry :=
  ⟨[(1, 1), (2, 2)],
   [(strB "t1", [(2, [(strB "a", 2)])]),
    (strB "t2", [(1, [(strB "s1", 1)])])]⟩

def s0ex : GoServer := ⟨false, [], [], [], [], [], [], []⟩
def hmEx : MessageHandlerT := fun _ _ _ => ()
def hsEx : SubscribeHandlerT := fun _ _ => true
def huEx : UnsubscribeHandlerT := fun _ _ => ()
def hcEx : ConnectHandlerT := fun _ _ => true
def hdEx : DisconnectHandlerT := fun _ => ()

/-! The claims. -/

/-- C1, counterexample: the session loop of clientHandler does not gate
SUBSCRIBE on a processed CONNECT, so processing a SUBSCRIBE frame for a
client that never processed CONNECT does insert that client into the
subscription index, and registry consistency fails: client 1 is referenced
by the index while the client table is empty. -/
theorem subscribe_before_connect_breaks_registry :
    invB (runEvents regEmpty [SEvent.subOK 1 exSubMsg]) = false
      ∧ (runEvents regEmpty [SEvent.subOK 1 exSubMsg]).clients = []
      ∧ 1 ∈ subsRefs (runEvents regEmpty [SEvent.subOK 1 exSubMsg]).subscriptions := by
  decide

/-- C1, amended: along any sequence of session-loop registry mutations in
which every processed SUBSCRIBE is performed by a client present in the
client table at that moment (the connect-first discipline the spec's session
state machine prescribes), registry consistency is preserved: every client
referenced by the subscription index is in the client table. -/
theorem registry_consistency_connect_first (r : Registry) (tr : List SEvent)
    (hi : invB r = true) (hw : wfB r = true) (hg : subsGuard r tr = true) :
    invB (runEvents r tr) = true := by
  rw [invB_iff]
  exact (runEvents_preserves tr r ((invB_iff r).mp hi) ((wfB_iff r).mp hw) hg).1

/-- Witness for the amended C1 at a concrete connect-first trace. -/
theorem registry_consistency_connect_first_witness :
    invB (runEvents regEmpty
      [SEvent.connectOK 1, SEvent.subOK 1 exSubMsg, SEvent.unsub 1 exUnsubMsg,
       SEvent.exitSession 1]) = true :=
  registry_consistency_connect_first regEmpty
    [SEvent.connectOK 1, SEvent.subOK 1 exSubMsg, SEvent.unsub 1 exUnsubMsg,
     SEvent.exitSession 1] (by decide) (by decide) (by decide)

/-- C2: the codec round trip fails on the code.  ToPayload writes `\n\n`
after the headers, so even for the frame (CONNECT, no headers, nil body) —
whose command and headers contain no newline and no colon — decoding the
encoded bytes yields a body of one newline byte rather than the original
empty body: decode(encode F) differs from F beyond header order and the
content-length header (none is present). -/
theorem roundtrip_fails_on_connect_frame :
    ToPayload ⟨strB "CONNECT", [], none⟩ = strB "CONNECT" ++ [10, 10, 10, 0]
      ∧ parseMessage (strB "CONNECT" ++ [10, 10, 10, 0])
          = ParseResult.ok ⟨strB "CONNECT", [], some [10]⟩
      ∧ (⟨strB "CONNECT", [], some [10]⟩ : StompMessage)
          ≠ ⟨strB "CONNECT", [], none⟩
      ∧ (⟨strB "CONNECT", [], some [10]⟩ : StompMessage)
          ≠ ⟨strB "CONNECT", [], some []⟩ := by
  decide

/-- C3: the content-length comparison in parseMessage is reversed.  For
`SEND\ncontent-length:1\n\nabc\0` the declared length 1 does not exceed the
three available body bytes, yet decode fails (the `return nil, nil` path),
and for `SEND\ncontent-length:9\n\nabc\0` the declared length 9 exceeds the
available bytes, yet decode panics on the slice instead of failing with a
mismatch error. -/
theorem content_length_comparison_reversed :
    bodyWithNull (strB "SEND\ncontent-length:1\n\nabc" ++ [0]) = strB "abc" ++ [0]
      ∧ parseMessage (strB "SEND\ncontent-length:1\n\nabc" ++ [0])
          = ParseResult.failNil
      ∧ parseMessage (strB "SEND\ncontent-length:9\n\nabc" ++ [0])
          = ParseResult.panicked := by
  decide

/-- C4: a text payload with no newline (and other than the heartbeat) makes
parseMessage take the `return nil, nil` path — no typed error — and the
session loop, whose only guard is `err != nil`, dereferences the nil result:
the reaction is a crash, not a clean log-break-close. -/
theorem short_payload_nil_crash :
    splitOnNL (strB "FOO") = [strB "FOO"]
      ∧ parseMessage (strB "FOO") = ParseResult.failNil
      ∧ sessionReadReaction (strB "FOO") = SessionReaction.crash := by
  decide

/-- C5: removeSubscription stops at the first topic whose bucket lacks the
client (a `return true` where the sweep needs `continue`).  In r5ex, topic
t1 has no bucket for client 1 while topic t2 holds client 1's subscription
s1; removing s1 for client 1 returns true and leaves the whole index
unchanged — s1 is not removed from t2 although t2 references client 1. -/
theorem remove_subscription_stops_at_first_missing_topic :
    removeSubscription r5ex 1 exUnsubMsg = (true, r5ex)
      ∧ lookupM r5ex.subscriptions (strB "t2") = some [(1, [(strB "s1", 1)])] := by
  decide

/-- C6: fan-out coverage.  SendMessage equals SendMessageWithCheck with a
nil predicate; with a nil predicate exactly one write is attempted per
subscription pair on the topic, and every attempted frame is the MESSAGE
frame carrying content-type, subscription (that pair's sub-id), destination
(the topic), content-length (the decimal byte length of the body) and the
body itself. -/
theorem fanout_coverage (r : Registry) (topic contentType body : Str) :
    SendMessage r topic contentType body
        = SendMessageWithCheck r topic contentType body none
      ∧ SendMessageWithCheck r topic contentType body none
          = (topicPairs r topic).map
              (fun q => (q.1, mkMessageFrame topic contentType q.2 body))
      ∧ (SendMessageWithCheck r topic contentType body none).length
          = (topicPairs r topic).length
      ∧ (SendMessageWithCheck r topic contentType body none).map
            (fun p => (p.1, p.2.Command, lookupM p.2.Headers hdrSubscription,
              lookupM p.2.Headers hdrDestination,
              lookupM p.2.Headers hdrContentType,
              lookupM p.2.Headers hdrContentLength, p.2.Body))
          = (topicPairs r topic).map
              (fun q => (q.1, cmdMessage, some q.2, some topic, some contentType,
                some (itoa body.length), some body)) := by
  have hmap : SendMessageWithCheck r topic contentType body none
      = (topicPairs r topic).map
          (fun q => (q.1, mkMessageFrame topic contentType q.2 body)) :=
    sendNone_eq_map (topicPairs r topic) topic contentType body
  exact ⟨rfl, hmap,
    by rw [hmap, List.length_map],
    by rw [hmap, List.map_map]; congr 1⟩

/-- C7: the first connect-handler veto stops the connect-handler loop (the
handlers after it are not invoked), the session returns — closing the
socket — the deferred disconnect handlers run, removeClient runs and the
client is never in the client table; a subscribe-handler veto likewise
stops the subscribe-handler loop and the subscription is not registered
(the registry is unchanged). -/
theorem veto_short_circuit {α β : Type} (r : Registry) (uid : Nat)
    (pre post : List (α → Bool)) (v : α → Bool) (x : α)
    (pre2 post2 : List (β → Bool)) (v2 : β → Bool) (y : β) (m : StompMessage)
    (hpre : ∀ h ∈ pre, h x = true) (hv : v x = false)
    (hpre2 : ∀ h ∈ pre2, h y = true) (hv2 : v2 y = false) :
    processConnect (pre ++ v :: post) x r uid
        = ⟨pre.length + 1, false, true, true, removeClient r uid⟩
      ∧ lookupM (processConnect (pre ++ v :: post) x r uid).registry.clients uid
          = none
      ∧ processSubscribe (pre2 ++ v2 :: post2) y r uid m
          = (pre2.length + 1, r) := by
  have h1 := runVetoList_veto pre post v x hpre hv
  have h2 := runVetoList_veto pre2 post2 v2 y hpre2 hv2
  refine ⟨?_, ?_, ?_⟩
  · simp [processConnect, h1]
  · simp [processConnect, h1, removeClient, lookupM_delK]
  · simp [processSubscribe, h2]

/-- Witness for C7 at concrete handler lists. -/
theorem veto_short_circuit_witness :
    processConnect [fun _ => true, fun _ => false, fun _ => true] (0 : Nat)
        regEmpty 7
        = ⟨2, false, true, true, removeClient regEmpty 7⟩
      ∧ lookupM (processConnect [fun _ => true, fun _ => false, fun _ => true]
          (0 : Nat) regEmpty 7).registry.clients 7 = none
      ∧ processSubscribe [fun _ => false] (0 : Nat) regEmpty 7 exSubMsg
          = (1, regEmpty) :=
  veto_short_circuit regEmpty 7 [fun _ => true] [fun _ => true] (fun _ => false)
    0 [] [] (fun _ => false) 0 exSubMsg
    (by intro h hm; obtain rfl := List.mem_singleton.mp hm; rfl) rfl
    (by intro h hm; exact absurd hm (List.not_mem_nil h)) rfl

/-- C8: addSubscription with a message lacking the destination header or the
id header returns false and leaves the registry unchanged, and
removeSubscription with a message lacking the id header returns false and
leaves the registry unchanged. -/
theorem header_preconditions_noop (r : Registry) (u : Nat)
    (m1 m2 : StompMessage)
    (h1 : lookupM m1.Headers hdrDestination = none
          ∨ lookupM m1.Headers hdrId = none)
    (h2 : lookupM m2.Headers hdrId = none) :
    addSubscription r u m1 = (false, r)
      ∧ removeSubscription r u m2 = (false, r) := by
  constructor
  · rcases h1 with h | h
    · simp [addSubscription, h]
    · cases hd : lookupM m1.Headers hdrDestination <;>
        simp [addSubscription, hd, h]
  · simp [removeSubscription, h2]

/-- Witness for C8 at headerless SUBSCRIBE and UNSUBSCRIBE messages. -/
theorem header_preconditions_noop_witness :
    addSubscription regEmpty 3 ⟨strB "SUBSCRIBE", [], none⟩ = (false, regEmpty)
      ∧ removeSubscription regEmpty 3 ⟨strB "UNSUBSCRIBE", [], none⟩
          = (false, regEmpty) :=
  header_preconditions_noop regEmpty 3 ⟨strB "SUBSCRIBE", [], none⟩
    ⟨strB "UNSUBSCRIBE", [], none⟩ (Or.inl (by decide)) (by decide)

/-- C9: after Setup the five Add*Handler calls return a non-nil error and
leave the server unchanged; before Setup each returns nil and appends its
handler at the end of the corresponding list. -/
theorem handler_registration_lifecycle (s : GoServer) (hm : MessageHandlerT)
    (hs : SubscribeHandlerT) (hu : UnsubscribeHandlerT) (hc : ConnectHandlerT)
    (hd : DisconnectHandlerT) :
    (SetupServer s).setup = true
      ∧ (s.setup = true →
          AddMessageHandler s hm
              = (some "unable to add message handler after server is setup", s)
            ∧ AddSubscribeHandler s hs
              = (some "unable to add subscribe handler after server is setup", s)
            ∧ AddUnsubscribeHandler s hu
              = (some "unable to add unsubscribe handler after server is setup", s)
            ∧ AddConnectHandler s hc
              = (some "unable to add connect handler after server is setup", s)
            ∧ AddDisconnectHandler s hd
              = (some "unable to add disconnect handler after server is setup", s))
      ∧ (s.setup = false →
          AddMessageHandler s hm
              = (none, { s with messageHandlers := s.messageHandlers ++ [hm] })
            ∧ AddSubscribeHandler s hs
              = (none, { s with subscribeHandlers := s.subscribeHandlers ++ [hs] })
            ∧ AddUnsubscribeHandler s hu
              = (none, { s with unsubscribeHandlers := s.unsubscribeHandlers ++ [hu] })
            ∧ AddConnectHandler s hc
              = (none, { s with connectHandlers := s.connectHandlers ++ [hc] })
            ∧ AddDisconnectHandler s hd
              = (none, { s with disconnectHandlers := s.disconnectHandlers ++ [hd] })) := by
  refine ⟨rfl, fun h => ?_, fun h => ?_⟩ <;>
    simp [AddMessageHandler, AddSubscribeHandler, AddUnsubscribeHandler,
      AddConnectHandler, AddDisconnectHandler, h]

/-- Witness for C9: a fresh server accepts a handler, and the same server
after Setup refuses one. -/
theorem handler_registration_lifecycle_witness :
    AddMessageHandler (SetupServer s0ex) hmEx
        = (some "unable to add message handler after server is setup",
           SetupServer s0ex)
      ∧ AddMessageHandler s0ex hmEx
        = (none, { s0ex with messageHandlers := s0ex.messageHandlers ++ [hmEx] }) :=
  ⟨((handler_registration_lifecycle (SetupServer s0ex) hmEx hsEx huEx hcEx hdEx).2.1
      rfl).1,
   ((handler_registration_lifecycle s0ex hmEx hsEx huEx hcEx hdEx).2.2 rfl).1⟩

/-- C10: parseMessage can end in a runtime panic: when no content-length
header was parsed and the re-joined remainder holds no NUL byte, the Go
slice `bodyWithNull[:bytes.IndexByte(bodyWithNull, 0x00)]` is taken at -1;
and when the content-length header parses to a value greater than the
length of the re-joined remainder, `bodyWithNull[:length]` is out of range. -/
theorem parse_slice_out_of_range (m : Str)
    (hlen : 2 ≤ (splitMsg m).length) :
    (lookupM (parsedHeaders m).1 hdrContentLength = none →
        idxOfNull (bodyWithNull m) = none →
        parseMessage m = ParseResult.panicked)
      ∧ (∀ (v : Str) (L : Int),
          lookupM (parsedHeaders m).1 hdrContentLength = some v →
          goParseInt32 v = some L →
          ((bodyWithNull m).length : Int) < L →
          parseMessage m = ParseResult.panicked) := by
  constructor
  · intro hcl hnull
    rw [parseMessage, if_neg (by omega)]
    simp [hcl, hnull]
  · intro v L hcl hparse hlt
    rw [parseMessage, if_neg (by omega)]
    have h1 : ¬ (L < ((bodyWithNull m).length : Int) - 1) := by omega
    have h2 : L < 0 ∨ ((bodyWithNull m).length : Int) < L := Or.inr hlt
    simp only [hcl, hparse, if_neg h1, if_pos h2]

/-- Witness for C10 at the two panicking inputs. -/
theorem parse_slice_out_of_range_witness :
    parseMessage (strB "FOO\n\nabc") = ParseResult.panicked
      ∧ parseMessage (strB "FOO\ncontent-length:9\n\nab" ++ [0])
          = ParseResult.panicked :=
  ⟨(parse_slice_out_of_range (strB "FOO\n\nabc") (by decide)).1
      (by decide) (by decide),
   (parse_slice_out_of_range (strB "FOO\ncontent-length:9\n\nab" ++ [0])
      (by decide)).2 (strB "9") 9 (by decide) (by decide) (by decide)⟩

end Stomper
